import Mathlib

/-!
Verification of the segmentation / scheduling / merging pipeline of the
Gemini-Pro-Suite medical-lecture transcript processor.  The definitions below
are shallow embeddings of the TypeScript functions in
`src/hooks/useChunkProcessor.ts` and `src/utils/audioUtils.ts`; the theorems
settle the specified properties of the Segmenter, the Concurrency Controller,
the Boundary-Fingerprint Merger, the Batch Planner, the Robust Invocation
Engine (retry / fallback), the stage-2 batch queue and the Result Merger.

JavaScript conventions used by the embedding: an optional string field that
the source tests with `||` / truthiness is modelled as a `String` where `""`
stands for both the empty string and `undefined` (the two are
indistinguishable under every use the source makes of such fields).
-/

namespace GPS

/-! ## JavaScript string helpers -/

/-- One step of substring search: does `pat` occur in the haystack?
Mirrors JavaScript `String.prototype.includes` (over the character list). -/
def containsSubL (pat : List Char) : List Char → Bool
  | [] => pat.isEmpty
  | c :: t => pat.isPrefixOf (c :: t) || containsSubL pat t

/-- JavaScript `s.includes(pat)`. -/
def containsSub (s pat : String) : Bool :=
  containsSubL pat.data s.data

/-- JavaScript `s.toLowerCase()` (the messages classified by the engine only
rely on the ASCII range, where `Char.toLower` agrees with JavaScript). -/
def jsToLower (s : String) : String :=
  String.mk (s.data.map Char.toLower)

/-- JavaScript `s.trim()`: strip leading and trailing whitespace. -/
def jsTrim (s : String) : String :=
  String.mk (((s.data.dropWhile Char.isWhitespace).reverse.dropWhile
    Char.isWhitespace).reverse)

/-! ## Batch Planner: `buildBatchesByCharOrCount`
(`src/hooks/useChunkProcessor.ts`, lines 840-857).

The source measures each item by `JSON.stringify(item).length`; the embedding
abstracts that measure as a `size` function, keeping the loop verbatim. -/

/-- The accumulation loop of `buildBatchesByCharOrCount`: `cur` is
`currentBatch`, `cnt` is `currentCharCount`. -/
def bbGo {α : Type} (size : α → Nat) (targetMaxChars maxItems : Nat) :
    List α → List α → Nat → List (List α)
  | [], cur, _ => if 0 < cur.length then [cur] else []
  | x :: xs, cur, cnt =>
    if 0 < cur.length ∧ (targetMaxChars < cnt + size x ∨ maxItems ≤ cur.length) then
      cur :: bbGo size targetMaxChars maxItems xs [x] (size x)
    else
      bbGo size targetMaxChars maxItems xs (cur ++ [x]) (cnt + size x)

/-- `buildBatchesByCharOrCount(items, targetMaxChars, maxItems)`. -/
def buildBatchesByCharOrCount {α : Type} (size : α → Nat) (items : List α)
    (targetMaxChars maxItems : Nat) : List (List α) :=
  if items.length = 0 then [] else bbGo size targetMaxChars maxItems items [] 0

/-- Serialized size of a batch (the loop's running `currentCharCount`). -/
def sumSize {α : Type} (size : α → Nat) (b : List α) : Nat :=
  (b.map size).sum

/-- The condition under which the planner closes a batch: between an emitted
batch `b` and the following batch (whose first item is `y`), the loop's guard
held — adding `y` would have exceeded the character budget, or `b` already
held the maximum item count. -/
def flushGuard {α : Type} (size : α → Nat) (targetMaxChars maxItems : Nat) :
    List α → List α → Prop
  | b, y :: _ => targetMaxChars < sumSize size b + size y ∨ maxItems ≤ b.length
  | _, [] => True

/-- A batch is greedily maximal: no earlier split point of the batch would
have triggered the planner's flush guard.  Every non-initial item `x` of the
batch, with `p` the part of the batch before it, was appended while
`sumSize p + size x` still fit the budget and `p` was below the item cap. -/
def GoodBatch {α : Type} (size : α → Nat) (targetMaxChars maxItems : Nat)
    (b : List α) : Prop :=
  ∀ p x q, b = p ++ x :: q → p ≠ [] →
    sumSize size p + size x ≤ targetMaxChars ∧ p.length < maxItems

/-! ## Boundary-Fingerprint Merger
(`src/hooks/useChunkProcessor.ts`, lines 649-676, and
`normalizeTextForDedupe` in `src/utils/audioUtils.ts`, lines 143-150). -/

/-- The characters removed by `normalizeTextForDedupe`'s punctuation regex. -/
def jsPunctChars : List Char :=
  ['.', ',', '/', '#', '!', '$', '%', '^', '&', '*', ';', ':',
   Char.ofNat 123, Char.ofNat 125, '=', '-', '_', Char.ofNat 96, '~',
   '(', ')', '[', ']']

/-- Fueled worker for whitespace collapsing: a maximal run of two or more
whitespace characters becomes a single space, a lone whitespace character is
kept unchanged — JavaScript `replace(/\s\x7b2,\x7d/g, " ")`.  The fuel always
suffices because each step shortens the list by exactly one. -/
def collapseWsFuel : Nat → List Char → List Char
  | 0, l => l
  | _ + 1, [] => []
  | _ + 1, [c] => [c]
  | n + 1, c :: d :: rest =>
    if c.isWhitespace && d.isWhitespace then collapseWsFuel n (' ' :: rest)
    else c :: collapseWsFuel n (d :: rest)

def collapseWs (l : List Char) : List Char := collapseWsFuel l.length l

/-- `normalizeTextForDedupe(text)`: lower-case, strip punctuation, collapse
whitespace runs, trim.  A missing (`undefined`) argument behaves like `""`
under the source's `if (!text)` guard. -/
def normalizeTextForDedupe (s : String) : String :=
  if s = "" then ""
  else jsTrim (String.mk (collapseWs
    ((jsToLower s).data.filter (fun c => ¬ jsPunctChars.contains c))))

/-- A stage-1 transcript item, restricted to the field the merge monitor
effect reads (`item.edited`). -/
structure MItem where
  edited : String
deriving DecidableEq

/-- The inner `for (j ...)` loop: does the fingerprint of `f` match one of
the previous window's last items? -/
def fpMatch (lastItems : List MItem) (f : MItem) : Prop :=
  ∃ l ∈ lastItems, normalizeTextForDedupe f.edited = normalizeTextForDedupe l.edited

instance (lastItems : List MItem) (f : MItem) : Decidable (fpMatch lastItems f) :=
  List.decidableBEx _ lastItems

/-- The outer `for (i ...)` loop with `break`: index (relative offset `i`) of
the first item of `fs` whose normalized text matches one of `lastItems`. -/
def findOverlapIdx (lastItems : List MItem) : List MItem → Nat → Option Nat
  | [], _ => none
  | f :: fs, i =>
    if fpMatch lastItems f then some i else findOverlapIdx lastItems fs (i + 1)

/-- `lastChunkTranscript.slice(-2)`. -/
def lastTwo (l : List MItem) : List MItem := l.drop (l.length - 2)

/-- Overlap-removal step of the merge monitor effect: given the previous
window's full transcript and the current window's transcript, drop the
leading items of the current window up to and including the first one whose
fingerprint matches one of the previous window's last two. -/
def dedupeCurrent (lastT cur : List MItem) : List MItem :=
  if 0 < lastT.length ∧ 0 < cur.length then
    match findOverlapIdx (lastTwo lastT) (cur.take 2) 0 with
    | some k => cur.drop (k + 1)
    | none => cur
  else cur

/-- The fold of the merge monitor effect over the completed windows in index
order: `merged` is `mergedTranscript`, `lastT` is `lastChunkTranscript`
(always the previous window's full, untruncated transcript). -/
def mergeGo (merged lastT : List MItem) : List (List MItem) → List MItem
  | [] => merged
  | c :: rest => mergeGo (merged ++ dedupeCurrent lastT c) c rest

/-- Boundary-fingerprint merge of the completed windows, in index order. -/
def mergeCompleted (windows : List (List MItem)) : List MItem :=
  mergeGo [] [] windows

/-- Concrete items for the boundary-merge scenarios. -/
def mItemA : MItem := ⟨"Alpha one"⟩

def mItemB : MItem := ⟨"Beta two"⟩

def mItemC : MItem := ⟨"Gamma three"⟩

/-! ## Stage-2 result shapes (`src/types.ts` / prompt schema) -/

structure RefinedSegment where
  speaker : String
  start_timestamp : String
  end_timestamp : String
  text : String
  source_timestamps : List String
  needs_review : Bool
deriving DecidableEq

structure RemovalRecord where
  timestamp : String
  speaker : String
  reason : String
  verbatim_excerpt : String
deriving DecidableEq

structure RemovalReport where
  removed_from_main : List RemovalRecord
  removal_summary : String
deriving DecidableEq

structure QaAudit where
  gv_coverage_attestation : Bool
  gv_items_total : Nat
  gv_items_used_in_main : Nat
  uncertain_items_count : Nat
  risk_flags : List String
  notes : String
deriving DecidableEq

structure PostEditResult where
  mode : String
  refined_script : List RefinedSegment
  removal_report : RemovalReport
  qa_audit : QaAudit
deriving DecidableEq

/-- A slim stage-1 item as fed to stage 2 (`buildSlimTranscript` output);
optional string fields are modelled with `""` for `undefined`. -/
structure SlimItem where
  timestamp : String
  speaker : String
  edited : String
  original : String
  uncertain : Bool
deriving DecidableEq

/-! ## Robust Invocation Engine: deterministic fallback
(`buildStep2Fallback`, `src/hooks/useChunkProcessor.ts`, lines 867-887). -/

/-- An apostrophe, as a one-character string. -/
def apos : String := String.mk [Char.ofNat 39]

/-- The fixed `qa_audit.notes` text of the deterministic fallback. -/
def fbNotes : String :=
  "Step 2 output had an invalid schema. This is a deterministic fallback generated from Step 1"
    ++ apos ++ "s " ++ apos ++ "edited" ++ apos ++ " text."

/-- An item's best-available text: `(item.edited || item.original || "").trim()`. -/
def bestText (it : SlimItem) : String :=
  jsTrim (if it.edited ≠ "" then it.edited
          else if it.original ≠ "" then it.original else "")

/-- The per-item segment synthesized by `buildStep2Fallback`. -/
def fallbackSegment (it : SlimItem) : RefinedSegment :=
  { speaker := if it.speaker ≠ "" then it.speaker else "[??]"
    start_timestamp := if it.timestamp ≠ "" then it.timestamp else "[00:00]"
    end_timestamp := if it.timestamp ≠ "" then it.timestamp else "[00:00]"
    text := jsTrim (if it.edited ≠ "" then it.edited
                    else if it.original ≠ "" then it.original else "")
    source_timestamps := if it.timestamp ≠ "" then [it.timestamp] else []
    needs_review := true }

/-- `buildStep2Fallback(items, reason)`. -/
def buildStep2Fallback (items : List SlimItem) (reason : String) : PostEditResult :=
  let refined := (items.map fallbackSegment).filter (fun x => 0 < x.text.length)
  { mode := "POST_EDIT_LECTURE_SCRIPT_RESULT_FALLBACK"
    refined_script := refined
    removal_report :=
      { removed_from_main := []
        removal_summary := "FALLBACK_USED: " ++ reason }
    qa_audit :=
      { gv_coverage_attestation := false
        gv_items_total := items.length
        gv_items_used_in_main := refined.length
        uncertain_items_count := (items.filter (fun i => i.uncertain)).length
        risk_flags := ["FALLBACK_USED", reason]
        notes := fbNotes } }

/-- A concrete slim item with non-empty edited text. -/
def slimItemEx : SlimItem :=
  { timestamp := "[00:05]", speaker := "[GV]", edited := "Hello there"
    original := "", uncertain := false }

/-- A second concrete slim item (for the batch-queue scenario). -/
def slimItemEx2 : SlimItem :=
  { timestamp := "[00:01]", speaker := "[GV]", edited := "Xin chao"
    original := "", uncertain := false }

/-! ## Robust Invocation Engine: retry classification loop
(`runStep2Robust`, `src/hooks/useChunkProcessor.ts`, lines 962-983, with
`isInternalError` at lines 774-777 and the timeout race of `runStep2Once` at
lines 953-954).  One `runStep2Once` attempt either returns a result or
throws an `Error` whose message drives the classification, so an attempt is
modelled by its outcome. -/

/-- `isInternalError(msg)`. -/
def isInternalError (msg : String) : Bool :=
  containsSub (jsToLower msg) "internal error" || containsSub (jsToLower msg) "500"
    || containsSub (jsToLower msg) "internal"

/-- The parse-error test of `runStep2Robust`: `msg.includes("Invalid JSON")`.
(The `error instanceof SyntaxError` disjunct is unreachable: `runStep2Once`
only ever throws plain `Error`s.) -/
def isParseErrorMsgStep2 (msg : String) : Bool :=
  containsSub msg "Invalid JSON"

/-- An error is retried inside the engine iff it is classified as
service-internal or malformed-output. -/
def retriableStep2 (msg : String) : Bool :=
  isInternalError msg || isParseErrorMsgStep2 msg

/-- The escalating backoff: `Math.pow(3, i) * 2000` milliseconds. -/
def step2Backoff (i : Nat) : Nat := 3 ^ i * 2000

/-- Outcome of one `runStep2Once` attempt. -/
inductive Step2Attempt (R : Type)
  | ok (r : R)
  | err (msg : String)
deriving DecidableEq

/-- Observable outcome of the retry loop of `runStep2Robust`:
either a result (with the number of attempts made and the backoff delays
slept), an error re-thrown to the batch-queue caller, or exhaustion of all
retries (after which the engine proceeds to split / fallback). -/
inductive Step2LoopOutcome (R : Type)
  | ok (r : R) (attemptsUsed : Nat) (backoffs : List Nat)
  | thrown (msg : String) (attemptsUsed : Nat) (backoffs : List Nat)
  | exhausted (backoffs : List Nat)
deriving DecidableEq

/-- The `for (let i = 0; i < STEP2_MAX_RETRIES; i++)` loop; `remaining` is
the number of attempts still allowed, `i` the current attempt index,
`backoffs` the delays slept so far (most recent first). -/
def retryLoopGo {R : Type} (att : Nat → Step2Attempt R) :
    Nat → Nat → List Nat → Step2LoopOutcome R
  | 0, _, backoffs => .exhausted backoffs.reverse
  | remaining + 1, i, backoffs =>
    match att i with
    | .ok r => .ok r (i + 1) backoffs.reverse
    | .err msg =>
      if retriableStep2 msg then
        if 0 < remaining then
          retryLoopGo att remaining (i + 1) (step2Backoff i :: backoffs)
        else .exhausted backoffs.reverse
      else .thrown msg (i + 1) backoffs.reverse

/-- The retry loop with `STEP2_MAX_RETRIES = 3`. -/
def runStep2RetryLoop {R : Type} (att : Nat → Step2Attempt R) : Step2LoopOutcome R :=
  retryLoopGo att 3 0 []

/-- The message of the stage-2 timeout race
(`Timeout: Step 2 batch không phản hồi`). -/
def step2TimeoutMsg : String := "Timeout: Step 2 batch không phản hồi"

/-! ## Stage-2 batch queue: recording a resolved batch
(`processQueue` effect, `src/hooks/useChunkProcessor.ts`, lines 584-611). -/

/-- The rate-limit test of the queue's catch clause. -/
def isRateLimitMsg (msg : String) : Bool :=
  containsSub msg "429" || containsSub msg "quota" || containsSub msg "RESOURCE_EXHAUSTED"

/-- How the queue records a batch after its invocation settles. -/
inductive BatchRecord
  | completed (r : PostEditResult)
  | failed (err : String)
  | revertedPending
deriving DecidableEq

/-- The queue's handling of a result returned by `runStep2Robust`: a result
whose `mode` contains `"FALLBACK"` is turned into a thrown error (the
fallback's `qa_audit.notes`, or a fixed message when empty), which the catch
clause then classifies; any other result completes the batch. -/
def recordStep2Result (r : PostEditResult) : BatchRecord :=
  if containsSub r.mode "FALLBACK" = true then
    let msg := if r.qa_audit.notes ≠ "" then r.qa_audit.notes
               else "Processing failed after all retries and splits."
    if isRateLimitMsg msg = true then .revertedPending else .failed msg
  else .completed r

/-! ## Result Merger (`mergePostEditResults`,
`src/hooks/useChunkProcessor.ts`, lines 915-940). -/

/-- JavaScript `[...new Set(xs)]`: deduplication keeping first occurrences. -/
def jsSetDedup : List String → List String
  | [] => []
  | x :: xs => x :: jsSetDedup (xs.filter (fun y => y != x))
termination_by l => l.length
decreasing_by simpa using Nat.lt_succ_of_le (List.length_filter_le _ _)

/-- The result returned for an empty input list. -/
def emptyPostEditResult : PostEditResult :=
  { mode := "EMPTY"
    refined_script := []
    removal_report := { removed_from_main := [], removal_summary := "No results." }
    qa_audit :=
      { gv_coverage_attestation := false, gv_items_total := 0
        gv_items_used_in_main := 0, uncertain_items_count := 0
        risk_flags := ["EMPTY_MERGE"], notes := "No results." } }

/-- The reduce's `initialValue`. -/
def initialBatchedPE : PostEditResult :=
  { mode := "POST_EDIT_LECTURE_SCRIPT_RESULT_BATCHED"
    refined_script := []
    removal_report := { removed_from_main := [], removal_summary := "" }
    qa_audit :=
      { gv_coverage_attestation := true, gv_items_total := 0
        gv_items_used_in_main := 0, uncertain_items_count := 0
        risk_flags := [], notes := "" } }

/-- The `--- BATCH n ---` separator inserted between non-empty summaries. -/
def batchSep (n : Nat) : String := "\n--- BATCH " ++ toString n ++ " ---\n"

/-- JavaScript template `acc + (acc ? sep : "") + current`. -/
def joinSummaries (a b : String) (index : Nat) : String :=
  a ++ (if a ≠ "" then batchSep (index + 1) else "") ++ b

/-- One step of the reduce in `mergePostEditResults`. -/
def mergeStepPE (acc current : PostEditResult) (index : Nat) : PostEditResult :=
  { mode := "POST_EDIT_LECTURE_SCRIPT_RESULT_BATCHED"
    refined_script := acc.refined_script ++ current.refined_script
    removal_report :=
      { removed_from_main :=
          acc.removal_report.removed_from_main ++ current.removal_report.removed_from_main
        removal_summary :=
          joinSummaries acc.removal_report.removal_summary
            current.removal_report.removal_summary index }
    qa_audit :=
      { gv_coverage_attestation :=
          acc.qa_audit.gv_coverage_attestation && current.qa_audit.gv_coverage_attestation
        gv_items_total := acc.qa_audit.gv_items_total + current.qa_audit.gv_items_total
        gv_items_used_in_main :=
          acc.qa_audit.gv_items_used_in_main + current.qa_audit.gv_items_used_in_main
        uncertain_items_count :=
          acc.qa_audit.uncertain_items_count + current.qa_audit.uncertain_items_count
        risk_flags := jsSetDedup (acc.qa_audit.risk_flags ++ current.qa_audit.risk_flags)
        notes := joinSummaries acc.qa_audit.notes current.qa_audit.notes index } }

/-- The reduce itself (JavaScript `reduce` with an initial value visits every
element, carrying the element index). -/
def mergeGoPE : PostEditResult → List PostEditResult → Nat → PostEditResult
  | acc, [], _ => acc
  | acc, r :: rest, index => mergeGoPE (mergeStepPE acc r index) rest (index + 1)

/-- `mergePostEditResults(results)`. -/
def mergePostEditResults : List PostEditResult → PostEditResult
  | [] => emptyPostEditResult
  | [r] => r
  | r1 :: r2 :: rest => mergeGoPE initialBatchedPE (r1 :: r2 :: rest) 0

/-- A concrete single-shot stage-2 result (non-batched mode tag). -/
def peExSingle : PostEditResult :=
  { mode := "POST_EDIT_LECTURE_SCRIPT_RESULT"
    refined_script :=
      [{ speaker := "[GV]", start_timestamp := "[00:00]", end_timestamp := "[00:10]"
         text := "First segment", source_timestamps := ["[00:00]"], needs_review := false }]
    removal_report := { removed_from_main := [], removal_summary := "Nothing removed" }
    qa_audit :=
      { gv_coverage_attestation := true, gv_items_total := 1
        gv_items_used_in_main := 1, uncertain_items_count := 0
        risk_flags := ["many_uncertain"], notes := "note one" } }

/-- A second concrete stage-2 result. -/
def peExSecond : PostEditResult :=
  { mode := "POST_EDIT_LECTURE_SCRIPT_RESULT"
    refined_script :=
      [{ speaker := "[SV]", start_timestamp := "[00:10]", end_timestamp := "[00:20]"
         text := "Second segment", source_timestamps := ["[00:10]"], needs_review := true }]
    removal_report := { removed_from_main := [], removal_summary := "Nothing removed" }
    qa_audit :=
      { gv_coverage_attestation := false, gv_items_total := 2
        gv_items_used_in_main := 1, uncertain_items_count := 1
        risk_flags := ["many_uncertain", "possible_drop_detail"], notes := "note two" } }

/-! ## Segmenter (`initializeChunks`, `src/hooks/useChunkProcessor.ts`,
lines 350-355), with `OVERLAP_SECONDS = 3`.  Durations are modelled as exact
rationals. -/

/-- `Math.ceil(durationSec / chunkSeconds)`. -/
def totalChunksOf (durationSec chunkSeconds : ℚ) : Nat :=
  (Int.ceil (durationSec / chunkSeconds)).toNat

/-- The `(startSec, endSec)` windows created by `initializeChunks`. -/
def chunkWindows (durationSec chunkSeconds : ℚ) : List (ℚ × ℚ) :=
  (List.range (totalChunksOf durationSec chunkSeconds)).map (fun (i : Nat) =>
    (max 0 ((i : ℚ) * chunkSeconds - (if 0 < i then (3 : ℚ) else 0)),
     min durationSec (((i : ℚ) + 1) * chunkSeconds)))

/-! ## Stage-1 Concurrency Controller (Scheduler)
(`useChunkProcessor`: the auto-run effect at lines 640-644, `processChunk`'s
status/stat updates and rate-limit branch at lines 382-383 / 509-537, the
cooldown tick at lines 276-305, and `initializeChunks`' reset of the cap).
The scheduler is modelled as a transition system driven by the events that
mutate its state; each event function is a no-op when its guard fails. -/

inductive CStatus
  | pending
  | processing
  | completed
  | failed
deriving DecidableEq

structure S1State where
  chunks : List CStatus
  processing : Nat
  maxConcurrency : Nat
  isCoolingDown : Bool
  cooldownSeconds : Nat
deriving DecidableEq

/-- The auto-run effect: if some chunk is `pending`, fewer than
`maxConcurrency` chunks are processing and no cooldown is active, the first
pending chunk is started. -/
def s1Launch (s : S1State) : S1State :=
  match s.chunks.findIdx? (fun c => c == CStatus.pending) with
  | none => s
  | some i =>
    if s.processing < s.maxConcurrency ∧ s.isCoolingDown = false then
      { s with chunks := s.chunks.set i .processing, processing := s.processing + 1 }
    else s

/-- Successful completion of an in-flight chunk. -/
def s1CompleteOk (s : S1State) (i : Nat) : S1State :=
  if s.chunks.getD i .failed = .processing then
    { s with chunks := s.chunks.set i .completed, processing := s.processing - 1 }
  else s

/-- The rate-limit branch of `processChunk`'s catch clause: drop the cap to
1, arm a fresh 60-second cooldown (overwriting any cooldown in progress) and
revert the chunk to `pending`. -/
def s1FailRateLimit (s : S1State) (i : Nat) : S1State :=
  if s.chunks.getD i .failed = .processing then
    { s with chunks := s.chunks.set i .pending
             maxConcurrency := 1
             isCoolingDown := true
             cooldownSeconds := 60
             processing := s.processing - 1 }
  else s

/-- Any other (non-rate-limit) failure: the chunk becomes `failed`. -/
def s1FailOther (s : S1State) (i : Nat) : S1State :=
  if s.chunks.getD i .failed = .processing then
    { s with chunks := s.chunks.set i .failed, processing := s.processing - 1 }
  else s

/-- One tick of the cooldown interval: decrement, clearing the flag when the
counter reaches zero. -/
def s1Tick (s : S1State) : S1State :=
  if s.isCoolingDown = true ∧ 0 < s.cooldownSeconds then
    if s.cooldownSeconds - 1 = 0 then
      { s with isCoolingDown := false, cooldownSeconds := 0 }
    else { s with cooldownSeconds := s.cooldownSeconds - 1 }
  else s

inductive S1Event
  | launch
  | completeOk ( i : Nat)
  | failRateLimit ( i : Nat)
  | failOther ( i : Nat)
  | tick
deriving DecidableEq

def s1Step (s : S1State) : S1Event → S1State
  | .launch => s1Launch s
  | .completeOk i => s1CompleteOk s i
  | .failRateLimit i => s1FailRateLimit s i
  | .failOther i => s1FailOther s i
  | .tick => s1Tick s

/-- The state right after `initializeChunks` created `n` chunks:
all pending, nothing processing, cap 5, no cooldown. -/
def s1Init (n : Nat) : S1State :=
  { chunks := List.replicate n .pending, processing := 0, maxConcurrency := 5
    isCoolingDown := false, cooldownSeconds := 0 }

def s1Run (s : S1State) (evs : List S1Event) : S1State := evs.foldl s1Step s

/-- The state reached from a fresh `n`-chunk run after the events `evs`. -/
def s1Reach (n : Nat) (evs : List S1Event) : S1State := s1Run (s1Init n) evs

/-- The run-state invariant maintained by every event. -/
def S1Inv (s : S1State) : Prop :=
  s.processing ≤ 5 ∧ (s.maxConcurrency = 5 ∨ s.maxConcurrency = 1)

/-! ## Stage-2 batch queue as a transition system
(`processQueue` effect, lines 573-615; retry handlers at lines 709-721;
stage-2 cooldown tick at lines 292-301). -/

inductive BStatus
  | pending
  | processing
  | completed
  | failed
deriving DecidableEq

structure S2State where
  batches : List BStatus
  processing : Nat
  isCoolingDown : Bool
  cooldownSeconds : Nat
  finalizing : Bool
deriving DecidableEq

/-- The queue effect: bail out unless finalizing, idle and not cooling down;
otherwise start the first pending batch. -/
def s2StartNext (s : S2State) : S2State :=
  if s.finalizing = false ∨ 0 < s.processing ∨ s.isCoolingDown = true then s
  else
    match s.batches.findIdx? (fun b => b == BStatus.pending) with
    | none => s
    | some i =>
      { s with batches := s.batches.set i .processing, processing := s.processing + 1 }

/-- `runStep2Robust` resolved without a fallback: batch completed,
`processing` reset to 0. -/
def s2FinishOk (s : S2State) (i : Nat) : S2State :=
  if s.batches.getD i .failed = .processing then
    { s with batches := s.batches.set i .completed, processing := 0 }
  else s

/-- A rate-limit error thrown to the queue: 60-second cooldown, the batch is
reverted to `pending`, `processing` reset to 0. -/
def s2FailRateLimit (s : S2State) (i : Nat) : S2State :=
  if s.batches.getD i .failed = .processing then
    { s with batches := s.batches.set i .pending
             isCoolingDown := true
             cooldownSeconds := 60
             processing := 0 }
  else s

/-- Any other error: batch failed, `processing` reset to 0. -/
def s2FailOther (s : S2State) (i : Nat) : S2State :=
  if s.batches.getD i .failed = .processing then
    { s with batches := s.batches.set i .failed, processing := 0 }
  else s

/-- One tick of the stage-2 cooldown interval. -/
def s2Tick (s : S2State) : S2State :=
  if s.isCoolingDown = true ∧ 0 < s.cooldownSeconds then
    if s.cooldownSeconds - 1 = 0 then
      { s with isCoolingDown := false, cooldownSeconds := 0 }
    else { s with cooldownSeconds := s.cooldownSeconds - 1 }
  else s

/-- `retryStep2Batch`: a failed batch goes back to `pending`. -/
def s2RetryBatch (s : S2State) (i : Nat) : S2State :=
  if s.batches.getD i .pending = .failed then
    { s with batches := s.batches.set i .pending }
  else s

inductive S2Event
  | startNext
  | finishOk ( i : Nat)
  | failRateLimit ( i : Nat)
  | failOther ( i : Nat)
  | tick
  | retryBatch ( i : Nat)
deriving DecidableEq

def s2Step (s : S2State) : S2Event → S2State
  | .startNext => s2StartNext s
  | .finishOk i => s2FinishOk s i
  | .failRateLimit i => s2FailRateLimit s i
  | .failOther i => s2FailOther s i
  | .tick => s2Tick s
  | .retryBatch i => s2RetryBatch s i

/-- The state right after `performStep2Finalization` queued `n` batches. -/
def s2Init (n : Nat) : S2State :=
  { batches := List.replicate n .pending, processing := 0
    isCoolingDown := false, cooldownSeconds := 0, finalizing := true }

def s2Run (s : S2State) (evs : List S2Event) : S2State := evs.foldl s2Step s

/-- The state reached from a fresh `n`-batch stage-2 run after `evs`. -/
def s2Reach (n : Nat) (evs : List S2Event) : S2State := s2Run (s2Init n) evs

/-! # Theorems -/

theorem bbGo_flatten {α : Type} (size : α → Nat) (t m : Nat) :
    ∀ (xs cur : List α) (cnt : Nat), (bbGo size t m xs cur cnt).flatten = cur ++ xs := by
  intro xs
  induction xs with
  | nil =>
    intro cur cnt
    by_cases h : 0 < cur.length
    · simp [bbGo, h]
    · simp only [Nat.pos_iff_ne_zero, ne_eq, not_not, List.length_eq_zero] at h
      simp [bbGo, h]
  | cons x xs ih =>
    intro cur cnt
    by_cases h : 0 < cur.length ∧ (t < cnt + size x ∨ m ≤ cur.length)
    · simp [bbGo, h, ih]
    · simp [bbGo, h, ih]

theorem bbGo_ne_nil {α : Type} (size : α → Nat) (t m : Nat) :
    ∀ (xs cur : List α) (cnt : Nat), cur ≠ [] →
      ∀ b ∈ bbGo size t m xs cur cnt, b ≠ [] := by
  intro xs
  induction xs with
  | nil =>
    intro cur cnt hcur b hb
    have hlen : 0 < cur.length := List.length_pos.mpr hcur
    simp [bbGo, hlen] at hb
    subst hb; exact hcur
  | cons x xs ih =>
    intro cur cnt hcur b hb
    have hlen : 0 < cur.length := List.length_pos.mpr hcur
    by_cases h : 0 < cur.length ∧ (t < cnt + size x ∨ m ≤ cur.length)
    · simp only [bbGo, if_pos h, List.mem_cons] at hb
      rcases hb with rfl | hb
      · exact hcur
      · exact ih [x] (size x) (by simp) b hb
    · simp only [bbGo, if_neg h] at hb
      exact ih (cur ++ [x]) (cnt + size x) (by simp) b hb

theorem bbGo_nil_start {α : Type} (size : α → Nat) (t m : Nat) (x : α) (xs : List α)
    (cnt : Nat) : bbGo size t m (x :: xs) [] cnt = bbGo size t m xs [x] (cnt + size x) := by
  simp [bbGo]

theorem bbGo_head {α : Type} (size : α → Nat) (t m : Nat) :
    ∀ (xs cur : List α) (cnt : Nat), cur ≠ [] →
      ∃ u, (bbGo size t m xs cur cnt).head? = some (cur ++ u) := by
  intro xs
  induction xs with
  | nil =>
    intro cur cnt hcur
    have hlen : 0 < cur.length := List.length_pos.mpr hcur
    exact ⟨[], by simp [bbGo, hlen]⟩
  | cons x xs ih =>
    intro cur cnt hcur
    have hlen : 0 < cur.length := List.length_pos.mpr hcur
    by_cases h : 0 < cur.length ∧ (t < cnt + size x ∨ m ≤ cur.length)
    · exact ⟨[], by simp [bbGo, h]⟩
    · obtain ⟨u, hu⟩ := ih (cur ++ [x]) (cnt + size x) (by simp)
      exact ⟨x :: u, by simpa [bbGo, h] using hu⟩

theorem sumSize_append {α : Type} (size : α → Nat) (b : List α) (x : α) :
    sumSize size (b ++ [x]) = sumSize size b + size x := by
  simp [sumSize]

theorem bbGo_chain {α : Type} (size : α → Nat) (t m : Nat) :
    ∀ (xs cur : List α) (cnt : Nat), cnt = sumSize size cur →
      List.Chain' (flushGuard size t m) (bbGo size t m xs cur cnt) := by
  intro xs
  induction xs with
  | nil =>
    intro cur cnt _
    by_cases h : 0 < cur.length <;> simp [bbGo, h]
  | cons x xs ih =>
    intro cur cnt hcnt
    by_cases h : 0 < cur.length ∧ (t < cnt + size x ∨ m ≤ cur.length)
    · rw [bbGo, if_pos h]
      rw [List.chain'_cons']
      refine ⟨?_, ih [x] (size x) (by simp [sumSize])⟩
      intro y hy
      obtain ⟨u, hu⟩ := bbGo_head size t m xs [x] (size x) (by simp)
      rw [hu] at hy
      cases hy
      subst hcnt
      exact h.2
    · rw [bbGo, if_neg h]
      exact ih (cur ++ [x]) (cnt + size x) (by rw [hcnt, sumSize_append])

theorem goodBatch_singleton {α : Type} (size : α → Nat) (t m : Nat) (y : α) :
    GoodBatch size t m [y] := by
  intro p x q hpq hp
  have hlen := congrArg List.length hpq
  have hple : 0 < p.length := List.length_pos.mpr hp
  simp at hlen
  omega

theorem goodBatch_append {α : Type} (size : α → Nat) (t m : Nat)
    (cur : List α) (x : α) (h : GoodBatch size t m cur)
    (hguard : cur = [] ∨ (sumSize size cur + size x ≤ t ∧ cur.length < m)) :
    GoodBatch size t m (cur ++ [x]) := by
  intro p y q hpq hp
  rcases List.eq_nil_or_concat q with rfl | ⟨q2, z, rfl⟩
  · have := List.append_inj' hpq (by rfl)
    obtain ⟨rfl, hx⟩ := this
    have hyx : y = x := by simpa using hx.symm
    subst hyx
    rcases hguard with hnil | hok
    · exact absurd hnil hp
    · exact hok
  · rw [List.concat_eq_append] at hpq
    have hre : p ++ y :: (q2 ++ [z]) = (p ++ y :: q2) ++ [z] := by simp
    rw [hre] at hpq
    have := List.append_inj' hpq (by rfl)
    obtain ⟨hcur, _⟩ := this
    exact h p y q2 hcur hp

theorem bbGo_good {α : Type} (size : α → Nat) (t m : Nat) :
    ∀ (xs cur : List α) (cnt : Nat), cnt = sumSize size cur →
      GoodBatch size t m cur →
      ∀ b ∈ bbGo size t m xs cur cnt, GoodBatch size t m b := by
  intro xs
  induction xs with
  | nil =>
    intro cur cnt _ hgood b hb
    by_cases h : 0 < cur.length
    · simp [bbGo, h] at hb; subst hb; exact hgood
    · simp [bbGo, h] at hb
  | cons x xs ih =>
    intro cur cnt hcnt hgood b hb
    by_cases h : 0 < cur.length ∧ (t < cnt + size x ∨ m ≤ cur.length)
    · simp only [bbGo, if_pos h, List.mem_cons] at hb
      rcases hb with rfl | hb
      · exact hgood
      · exact ih [x] (size x) (by simp [sumSize]) (goodBatch_singleton size t m x) b hb
    · simp only [bbGo, if_neg h] at hb
      refine ih (cur ++ [x]) (cnt + size x) (by rw [hcnt, sumSize_append]) ?_ b hb
      refine goodBatch_append size t m cur x hgood ?_
      rcases List.eq_nil_or_concat cur with hnil | _
      · exact Or.inl hnil
      · by_cases hcur : cur = []
        · exact Or.inl hcur
        · right
          have hlen : 0 < cur.length := List.length_pos.mpr hcur
          push_neg at h
          have := h hlen
          push_neg at this
          exact ⟨by omega, by omega⟩

/-- Claim C4: the Batch Planner's batches, concatenated in order,
reconstruct exactly the input sequence (no drops, no duplicates, no
reordering); every batch is non-empty (an oversized single item still gets
its own batch); and a new batch is started exactly when adding the next item
would exceed the character budget or the batch already holds the maximum
item count — `flushGuard` holds between adjacent batches, and `GoodBatch`
says no earlier split point inside a batch would have triggered the guard. -/
theorem buildBatches_partition {α : Type} (size : α → Nat) (items : List α)
    (targetMaxChars maxItems : Nat) :
    (buildBatchesByCharOrCount size items targetMaxChars maxItems).flatten = items
    ∧ (∀ b ∈ buildBatchesByCharOrCount size items targetMaxChars maxItems, b ≠ [])
    ∧ List.Chain' (flushGuard size targetMaxChars maxItems)
        (buildBatchesByCharOrCount size items targetMaxChars maxItems)
    ∧ ∀ b ∈ buildBatchesByCharOrCount size items targetMaxChars maxItems,
        GoodBatch size targetMaxChars maxItems b := by
  rcases items with _ | ⟨x, xs⟩
  · exact ⟨rfl, by simp [buildBatchesByCharOrCount], by simp [buildBatchesByCharOrCount],
      by simp [buildBatchesByCharOrCount]⟩
  · have hstep : buildBatchesByCharOrCount size (x :: xs) targetMaxChars maxItems
        = bbGo size targetMaxChars maxItems xs [x] (size x) := by
      simp [buildBatchesByCharOrCount, bbGo]
    refine ⟨?_, ?_, ?_, ?_⟩
    · rw [hstep, bbGo_flatten]
      rfl
    · rw [hstep]
      exact bbGo_ne_nil size targetMaxChars maxItems xs [x] (size x) (by simp)
    · rw [hstep]
      exact bbGo_chain size targetMaxChars maxItems xs [x] (size x) (by simp [sumSize])
    · rw [hstep]
      exact bbGo_good size targetMaxChars maxItems xs [x] (size x) (by simp [sumSize])
        (goodBatch_singleton size targetMaxChars maxItems x)

/-- Witness for C4 at a concrete input. -/
theorem buildBatches_partition_witness :
    (buildBatchesByCharOrCount String.length ["aa", "bbb", "c"] 4 10).flatten
      = ["aa", "bbb", "c"] :=
  (buildBatches_partition String.length ["aa", "bbb", "c"] 4 10).1

theorem string_length_pos_iff (s : String) : 0 < s.length ↔ s ≠ "" := by
  cases s with
  | mk data =>
    cases data with
    | nil => exact ⟨fun h => by simp [String.length] at h, fun h => absurd rfl h⟩
    | cons c cs =>
      refine ⟨fun _ hne => ?_, fun _ => by simp [String.length]⟩
      have := congrArg String.data hne
      simp at this

/-- Claim C1: the deterministic fallback never drops an item with non-empty
best-available text.  `buildStep2Fallback`'s removal report is always empty;
its `refined_script` is exactly, in order, one synthesized segment per input
item whose best-available text (`edited`, else `original`, trimmed) is
non-empty, carrying that text verbatim with `needs_review = true`; in
particular every such item has a matching entry; and the explicit fallback
reason code appears in the audit's risk flags.  Consequently an item is
absent from both the `refined_script` and the removal report only when its
best-available text is empty. -/
theorem buildStep2Fallback_safety (items : List SlimItem) (reason : String) :
    (buildStep2Fallback items reason).removal_report.removed_from_main = []
    ∧ (buildStep2Fallback items reason).refined_script
        = (items.filter (fun it => bestText it ≠ "")).map fallbackSegment
    ∧ (∀ e ∈ (buildStep2Fallback items reason).refined_script,
        e.needs_review = true)
    ∧ (∀ it ∈ items, bestText it ≠ "" →
        ∃ e ∈ (buildStep2Fallback items reason).refined_script,
          e.text = bestText it ∧ e.needs_review = true)
    ∧ reason ∈ (buildStep2Fallback items reason).qa_audit.risk_flags := by
  have htext : ∀ it : SlimItem, (fallbackSegment it).text = bestText it := fun it => rfl
  have hfilter : (buildStep2Fallback items reason).refined_script
      = (items.filter (fun it => bestText it ≠ "")).map fallbackSegment := by
    show (items.map fallbackSegment).filter (fun x => 0 < x.text.length) = _
    rw [List.filter_map]
    congr 1
    apply List.filter_congr
    intro it _
    simp only [Function.comp_apply, htext, decide_eq_decide]
    exact string_length_pos_iff (bestText it)
  refine ⟨rfl, hfilter, ?_, ?_, ?_⟩
  · intro e he
    rw [hfilter] at he
    obtain ⟨it, _, rfl⟩ := List.mem_map.mp he
    rfl
  · intro it hit hne
    refine ⟨fallbackSegment it, ?_, htext it, rfl⟩
    rw [hfilter]
    exact List.mem_map_of_mem fallbackSegment (List.mem_filter.mpr ⟨hit, by simpa using hne⟩)
  · simp [buildStep2Fallback]

/-- Witness for C1 at a concrete item. -/
theorem buildStep2Fallback_safety_witness :
    ∃ e ∈ (buildStep2Fallback [slimItemEx] "TEST_REASON").refined_script,
      e.text = bestText slimItemEx ∧ e.needs_review = true :=
  (buildStep2Fallback_safety [slimItemEx] "TEST_REASON").2.2.2.1 slimItemEx
    (by decide) (by decide)

/-- Claim C5 counterexample: a timeout is NOT retried by `runStep2Robust`.
The timeout message matches neither the service-internal nor the
malformed-output predicate, so the very first timeout is re-thrown to the
caller after a single attempt — not retried up to 3 attempts as claimed. -/
theorem timeout_not_retried_cx :
    retriableStep2 step2TimeoutMsg = false
    ∧ runStep2RetryLoop (fun _ => Step2Attempt.err (R := Unit) step2TimeoutMsg)
        = Step2LoopOutcome.thrown step2TimeoutMsg 1 [] := by decide

/-- Claim C5 (amended): malformed-output and service-internal errors are each
retried up to 3 attempts with escalating backoff (base 2s, ×3 per attempt);
a rate-limit error — and, contrary to the original claim, also a timeout —
is never retried there and is re-thrown to the caller on the first attempt;
the timeout message is classified as non-retriable while malformed-output
and internal-error messages are retriable. -/
theorem step2_retry_amended {R : Type} (att : Nat → Step2Attempt R) :
    (∀ msg, att 0 = .err msg → retriableStep2 msg = false →
        runStep2RetryLoop att = .thrown msg 1 [])
    ∧ (∀ m0 m1 m2, att 0 = .err m0 → att 1 = .err m1 → att 2 = .err m2 →
        retriableStep2 m0 = true → retriableStep2 m1 = true → retriableStep2 m2 = true →
        runStep2RetryLoop att = .exhausted [2000, 6000])
    ∧ (∀ r, att 0 = .ok r → runStep2RetryLoop att = .ok r 1 [])
    ∧ (∀ m0 r, att 0 = .err m0 → retriableStep2 m0 = true → att 1 = .ok r →
        runStep2RetryLoop att = .ok r 2 [2000])
    ∧ retriableStep2 step2TimeoutMsg = false
    ∧ retriableStep2 "Invalid JSON: Unexpected token" = true
    ∧ retriableStep2 "Internal error: Step 2 empty response text" = true
    ∧ retriableStep2 "429 RESOURCE_EXHAUSTED: quota exceeded" = false := by
  refine ⟨?_, ?_, ?_, ?_, by decide, by decide, by decide, by decide⟩
  · intro msg h0 hret
    simp [runStep2RetryLoop, retryLoopGo, h0, hret]
  · intro m0 m1 m2 h0 h1 h2 hr0 hr1 hr2
    simp [runStep2RetryLoop, retryLoopGo, h0, h1, h2, hr0, hr1, hr2, step2Backoff]
  · intro r h0
    simp [runStep2RetryLoop, retryLoopGo, h0]
  · intro m0 r h0 hr0 h1
    simp [runStep2RetryLoop, retryLoopGo, h0, hr0, h1, step2Backoff]

/-- Witness for C5 (amended): three malformed-output failures exhaust the
retries with backoffs 2000 ms and 6000 ms. -/
theorem step2_retry_amended_witness :
    runStep2RetryLoop (fun _ => Step2Attempt.err (R := Unit) "Invalid JSON: bad")
      = Step2LoopOutcome.exhausted [2000, 6000] :=
  (step2_retry_amended (fun _ => Step2Attempt.err (R := Unit) "Invalid JSON: bad")).2.1
    "Invalid JSON: bad" "Invalid JSON: bad" "Invalid JSON: bad" rfl rfl rfl
    (by decide) (by decide) (by decide)

/-- Claim C6 counterexample: a batch that resolves via the deterministic
fallback is recorded by the queue as a FAILED unit (the queue throws on the
`"FALLBACK"` mode tag and the fallback's notes are not a rate-limit
message), not as a completed unit carrying review markers. -/
theorem fallback_marked_failed_cx :
    recordStep2Result (buildStep2Fallback [slimItemEx2] "MAX_RETRIES_AND_SPLITS_FAILED")
      = BatchRecord.failed fbNotes := by decide

/-- Claim C6 (amended): when a stage-2 batch resolves via the deterministic
fallback, the batch-queue caller records it as a failed unit (throwing with
the fallback's `qa_audit.notes` as the error), not as a completed unit; only
a result whose mode tag does not contain `"FALLBACK"` is recorded as a
completed unit carrying its result. -/
theorem fallback_recorded_failed_amended (items : List SlimItem) (reason : String)
    (r : PostEditResult) :
    recordStep2Result (buildStep2Fallback items reason) = .failed fbNotes
    ∧ (containsSub r.mode "FALLBACK" = false → recordStep2Result r = .completed r) := by
  constructor
  · have hmode : (buildStep2Fallback items reason).mode
        = "POST_EDIT_LECTURE_SCRIPT_RESULT_FALLBACK" := rfl
    have hnotes : (buildStep2Fallback items reason).qa_audit.notes = fbNotes := rfl
    rw [recordStep2Result, hmode, hnotes]
    simp [show containsSub "POST_EDIT_LECTURE_SCRIPT_RESULT_FALLBACK" "FALLBACK" = true
            from by decide,
          show fbNotes ≠ "" from by decide,
          show isRateLimitMsg fbNotes = false from by decide]
  · intro h
    simp [recordStep2Result, h]

/-- Witness for C6 (amended): a non-fallback result completes the batch. -/
theorem fallback_recorded_failed_amended_witness :
    recordStep2Result peExSingle = BatchRecord.completed peExSingle :=
  (fallback_recorded_failed_amended [] "" peExSingle).2 (by decide)

theorem findOverlapIdx_none (lastItems : List MItem) :
    ∀ (fs : List MItem) (i : Nat), (∀ g ∈ fs, ¬ fpMatch lastItems g) →
      findOverlapIdx lastItems fs i = none := by
  intro fs
  induction fs with
  | nil => intro i _; rfl
  | cons f fs ih =>
    intro i h
    rw [findOverlapIdx, if_neg (h f (by simp))]
    exact ih (i + 1) (fun g hg => h g (by simp [hg]))

theorem findOverlapIdx_spec (lastItems : List MItem) :
    ∀ (pre : List MItem) (f : MItem) (post : List MItem) (i : Nat),
      (∀ g ∈ pre, ¬ fpMatch lastItems g) → fpMatch lastItems f →
      findOverlapIdx lastItems (pre ++ f :: post) i = some (i + pre.length) := by
  intro pre
  induction pre with
  | nil =>
    intro f post i _ hf
    simp [findOverlapIdx, hf]
  | cons g pre ih =>
    intro f post i h hf
    rw [List.cons_append, findOverlapIdx, if_neg (h g (by simp))]
    rw [ih f post (i + 1) (fun g2 hg2 => h g2 (by simp [hg2])) hf]
    congr 1
    simp
    omega

/-- Claim C3 counterexample: when window 2's first two fingerprinted items
exactly match window 1's last two, the merger finds the match at position 0
and drops only ONE leading item of window 2 — the duplicated second item is
kept — contrary to the claim that it drops those two leading items. -/
theorem merge_two_match_drops_one_cx :
    mergeCompleted [[mItemA, mItemB], [mItemA, mItemB, mItemC]]
      = [mItemA, mItemB, mItemB, mItemC]
    ∧ mergeCompleted [[mItemA, mItemB], [mItemA, mItemB, mItemC]]
      ≠ [mItemA, mItemB, mItemC] := by decide

/-- Claim C3 (amended): for adjacent completed windows the merger normalizes
the previous window's last two items and the current window's first two; if
the FIRST match is found at position `k` (every earlier position not
matching), items `[0..k]` of the current window are discarded before
concatenation; in particular when the current window's first item matches
one of the previous window's last two — as happens when the first two items
match the last two — only that one leading item is dropped; and when no
match is found among the first two items, no truncation occurs. -/
theorem boundary_merge_amended (prev cur : List MItem) (hp : prev ≠ []) (hc : cur ≠ []) :
    ((∀ g ∈ cur.take 2, ¬ fpMatch (lastTwo prev) g) → dedupeCurrent prev cur = cur)
    ∧ (∀ pre f post, cur.take 2 = pre ++ f :: post →
        (∀ g ∈ pre, ¬ fpMatch (lastTwo prev) g) → fpMatch (lastTwo prev) f →
        dedupeCurrent prev cur = cur.drop (pre.length + 1))
    ∧ (∀ f rest, cur = f :: rest → fpMatch (lastTwo prev) f →
        dedupeCurrent prev cur = rest)
    ∧ mergeCompleted [prev, cur] = prev ++ dedupeCurrent prev cur := by
  have hguard : 0 < prev.length ∧ 0 < cur.length :=
    ⟨List.length_pos.mpr hp, List.length_pos.mpr hc⟩
  have hfirst : ∀ pre f post, cur.take 2 = pre ++ f :: post →
      (∀ g ∈ pre, ¬ fpMatch (lastTwo prev) g) → fpMatch (lastTwo prev) f →
      dedupeCurrent prev cur = cur.drop (pre.length + 1) := by
    intro pre f post htake hpre hf
    rw [dedupeCurrent, if_pos hguard, htake,
      findOverlapIdx_spec (lastTwo prev) pre f post 0 hpre hf]
    simp
  refine ⟨?_, hfirst, ?_, ?_⟩
  · intro h
    rw [dedupeCurrent, if_pos hguard, findOverlapIdx_none (lastTwo prev) (cur.take 2) 0 h]
  · intro f rest hcur hf
    have := hfirst [] f (rest.take 1) (by rw [hcur]; rfl) (by simp) hf
    rw [this, hcur]
    rfl
  · show mergeGo [] [] [prev, cur] = prev ++ dedupeCurrent prev cur
    rw [mergeGo, mergeGo, mergeGo]
    have hid : dedupeCurrent [] prev = prev := by
      rw [dedupeCurrent, if_neg (by simp)]
    rw [hid]
    simp

/-- Witness for C3 (amended): two windows whose first two / last two items
match; the merger drops exactly the first leading item of the second
window. -/
theorem boundary_merge_amended_witness :
    dedupeCurrent [mItemA, mItemB] [mItemA, mItemB, mItemC] = [mItemB, mItemC] :=
  (boundary_merge_amended [mItemA, mItemB] [mItemA, mItemB, mItemC]
      (by decide) (by decide)).2.2.1 mItemA [mItemB, mItemC] rfl (by decide)

/-- Claim C8: for positive duration `d` and effective chunk length `c` (with
the fixed 3-unit overlap), the Segmenter produces `⌈d / c⌉` windows; window 0
starts at 0 (and ends at `min d c`); window `i` starts at
`max 0 (i·c − 3)` for `i > 0` and ends at `min d ((i+1)·c)`; the final
window's end equals `d` exactly; and a 185-unit recording with 60-unit
windows yields `[0,60], [57,120], [117,180], [177,185]`. -/
theorem segmenter_windows_spec :
    (∀ d c : ℚ, 0 < d → 0 < c →
      (chunkWindows d c).length = totalChunksOf d c
      ∧ 0 < totalChunksOf d c
      ∧ (∀ i, i < totalChunksOf d c →
          (chunkWindows d c).getD i (0, 0)
            = (max 0 ((i : ℚ) * c - (if 0 < i then (3 : ℚ) else 0)),
               min d (((i : ℚ) + 1) * c)))
      ∧ (chunkWindows d c).getD 0 (0, 0) = (0, min d c)
      ∧ ((chunkWindows d c).map Prod.snd).getLast? = some d)
    ∧ chunkWindows 185 60 = [(0, 60), (57, 120), (117, 180), (177, 185)] := by
  constructor
  · intro d c hd hc
    have hceilpos : 0 < Int.ceil (d / c) := Int.ceil_pos.mpr (div_pos hd hc)
    have hpos : 0 < totalChunksOf d c := by
      unfold totalChunksOf
      omega
    have hcast : ((totalChunksOf d c : ℕ) : ℚ) = ((Int.ceil (d / c) : ℤ) : ℚ) := by
      unfold totalChunksOf
      have := Int.toNat_of_nonneg (le_of_lt hceilpos)
      exact_mod_cast congrArg (fun z : ℤ => ((z : ℚ))) this
    have hle : d ≤ ((totalChunksOf d c : ℕ) : ℚ) * c := by
      have h1 : d / c ≤ ((totalChunksOf d c : ℕ) : ℚ) := by
        rw [hcast]
        exact Int.le_ceil (d / c)
      calc d = d / c * c := (div_mul_cancel₀ d (ne_of_gt hc)).symm
        _ ≤ ((totalChunksOf d c : ℕ) : ℚ) * c :=
            mul_le_mul_of_nonneg_right h1 (le_of_lt hc)
    have hgetD : ∀ i, i < totalChunksOf d c →
        (chunkWindows d c).getD i (0, 0)
          = (max 0 ((i : ℚ) * c - (if 0 < i then (3 : ℚ) else 0)),
             min d (((i : ℚ) + 1) * c)) := by
      intro i hi
      simp [chunkWindows, List.getD_eq_getElem?_getD, List.getElem?_map,
        List.getElem?_range, hi]
    refine ⟨by simp [chunkWindows], hpos, hgetD, ?_, ?_⟩
    · rw [hgetD 0 hpos]
      norm_num
    · obtain ⟨m, hm⟩ : ∃ m, totalChunksOf d c = m + 1 :=
        ⟨totalChunksOf d c - 1, by omega⟩
      have hmc : ((m : ℚ) + 1) * c = ((totalChunksOf d c : ℕ) : ℚ) * c := by
        rw [hm]
        push_cast
        ring
      rw [chunkWindows, hm, List.map_map, List.range_succ, List.map_append]
      simp only [List.map_cons, List.map_nil]
      rw [List.getLast?_concat]
      simp only [Function.comp_apply]
      rw [min_eq_left (by rw [hmc]; exact hm ▸ hle)]
  · have h4 : totalChunksOf 185 60 = 4 := by
      unfold totalChunksOf
      have h : Int.ceil ((185 : ℚ) / 60) = 4 := by
        rw [Int.ceil_eq_iff]
        constructor <;> norm_num
      rw [h]
      rfl
    have hr : List.range 4 = [0, 1, 2, 3] := by decide
    simp only [chunkWindows, h4, hr, List.map_cons, List.map_nil]
    norm_num

/-- Witness for C8 at the spec's example. -/
theorem segmenter_windows_witness :
    (chunkWindows 185 60).length = totalChunksOf 185 60 :=
  (segmenter_windows_spec.1 185 60 (by norm_num) (by norm_num)).1

theorem s1Step_inv (s : S1State) (e : S1Event) (h : S1Inv s) : S1Inv (s1Step s e) := by
  rcases h with ⟨hp, hc⟩
  have hcle : s.maxConcurrency ≤ 5 := by rcases hc with h5 | h1 <;> omega
  cases e with
  | launch =>
    show S1Inv (s1Launch s)
    unfold s1Launch
    split
    · exact ⟨hp, hc⟩
    · split_ifs with hg
      · exact ⟨by show s.processing + 1 ≤ 5; omega, hc⟩
      · exact ⟨hp, hc⟩
  | completeOk i =>
    show S1Inv (s1CompleteOk s i)
    unfold s1CompleteOk
    split_ifs
    · exact ⟨by show s.processing - 1 ≤ 5; omega, hc⟩
    · exact ⟨hp, hc⟩
  | failRateLimit i =>
    show S1Inv (s1FailRateLimit s i)
    unfold s1FailRateLimit
    split_ifs
    · exact ⟨by show s.processing - 1 ≤ 5; omega, Or.inr rfl⟩
    · exact ⟨hp, hc⟩
  | failOther i =>
    show S1Inv (s1FailOther s i)
    unfold s1FailOther
    split_ifs
    · exact ⟨by show s.processing - 1 ≤ 5; omega, hc⟩
    · exact ⟨hp, hc⟩
  | tick =>
    show S1Inv (s1Tick s)
    unfold s1Tick
    split_ifs <;> exact ⟨hp, hc⟩

theorem s1Run_inv (evs : List S1Event) :
    ∀ (s : S1State), S1Inv s → S1Inv (s1Run s evs) := by
  induction evs with
  | nil => intro s h; exact h
  | cons e evs ih => intro s h; exact ih (s1Step s e) (s1Step_inv s e h)

theorem s1Reach_inv (n : Nat) (evs : List S1Event) : S1Inv (s1Reach n evs) :=
  s1Run_inv evs (s1Init n) ⟨by simp [s1Init], Or.inl rfl⟩

theorem s1Step_cap_mono (s : S1State) (e : S1Event) (h : S1Inv s) :
    (s1Step s e).maxConcurrency ≤ s.maxConcurrency := by
  have h1 : 1 ≤ s.maxConcurrency := by rcases h.2 with h5 | h5 <;> omega
  cases e with
  | launch =>
    show (s1Launch s).maxConcurrency ≤ _
    unfold s1Launch
    split
    · exact le_refl _
    · split_ifs <;> exact le_refl _
  | completeOk i =>
    show (s1CompleteOk s i).maxConcurrency ≤ _
    unfold s1CompleteOk
    split_ifs <;> exact le_refl _
  | failRateLimit i =>
    show (s1FailRateLimit s i).maxConcurrency ≤ _
    unfold s1FailRateLimit
    split_ifs
    · exact h1
    · exact le_refl _
  | failOther i =>
    show (s1FailOther s i).maxConcurrency ≤ _
    unfold s1FailOther
    split_ifs <;> exact le_refl _
  | tick =>
    show (s1Tick s).maxConcurrency ≤ _
    unfold s1Tick
    split_ifs <;> exact le_refl _

theorem s1Step_processing_mono (s : S1State) (e : S1Event)
    (h : s.maxConcurrency < s.processing) :
    (s1Step s e).processing ≤ s.processing := by
  cases e with
  | launch =>
    show (s1Launch s).processing ≤ _
    unfold s1Launch
    split
    · exact le_refl _
    · split_ifs with hg
      · exact absurd hg.1 (by omega)
      · exact le_refl _
  | completeOk i =>
    show (s1CompleteOk s i).processing ≤ _
    unfold s1CompleteOk
    split_ifs
    · exact Nat.sub_le _ _
    · exact le_refl _
  | failRateLimit i =>
    show (s1FailRateLimit s i).processing ≤ _
    unfold s1FailRateLimit
    split_ifs
    · exact Nat.sub_le _ _
    · exact le_refl _
  | failOther i =>
    show (s1FailOther s i).processing ≤ _
    unfold s1FailOther
    split_ifs
    · exact Nat.sub_le _ _
    · exact le_refl _
  | tick =>
    show (s1Tick s).processing ≤ _
    unfold s1Tick
    split_ifs <;> exact le_refl _

/-- Claim C2 counterexample: with three chunks in flight under the initial
cap of 5, a single rate-limit failure drops `maxConcurrency` to 1 while two
chunks are still processing — so "processing ≤ maxConcurrency at every
observed instant" fails on the code. -/
theorem processing_can_exceed_cap_cx :
    (s1Reach 3 [.launch, .launch, .launch, .failRateLimit 0]).processing = 2
    ∧ (s1Reach 3 [.launch, .launch, .launch, .failRateLimit 0]).maxConcurrency = 1
    ∧ ¬ (s1Reach 3 [.launch, .launch, .launch, .failRateLimit 0]).processing
        ≤ (s1Reach 3 [.launch, .launch, .launch, .failRateLimit 0]).maxConcurrency := by
  decide

/-- Claim C2 (amended): in every reachable state of a stage-1 run the number
of processing chunks is at most 5 (the initial cap) and `maxConcurrency` is
either 5 or 1; `maxConcurrency` starts at 5, never increases during a run,
and is set to 1 by any rate-limit failure of an in-flight chunk; new chunks
are launched only while `processing < maxConcurrency`, so whenever
`processing` exceeds the (just lowered) cap it cannot increase further —
but, contrary to the original claim, `processing ≤ maxConcurrency` can be
transiently violated right after the cap drops with several chunks in
flight. -/
theorem scheduler_cap_amended (n : Nat) (evs : List S1Event) :
    (s1Reach n evs).processing ≤ 5
    ∧ ((s1Reach n evs).maxConcurrency = 5 ∨ (s1Reach n evs).maxConcurrency = 1)
    ∧ (s1Init n).maxConcurrency = 5
    ∧ (∀ e, (s1Step (s1Reach n evs) e).maxConcurrency ≤ (s1Reach n evs).maxConcurrency)
    ∧ (∀ i, (s1Reach n evs).chunks.getD i .failed = .processing →
        (s1Step (s1Reach n evs) (.failRateLimit i)).maxConcurrency = 1)
    ∧ (∀ e, (s1Reach n evs).maxConcurrency < (s1Reach n evs).processing →
        (s1Step (s1Reach n evs) e).processing ≤ (s1Reach n evs).processing) := by
  have hinv := s1Reach_inv n evs
  refine ⟨hinv.1, hinv.2, rfl, fun e => s1Step_cap_mono _ e hinv, ?_, fun e h =>
    s1Step_processing_mono _ e h⟩
  intro i hi
  show (s1FailRateLimit (s1Reach n evs) i).maxConcurrency = 1
  unfold s1FailRateLimit
  rw [if_pos hi]

/-- Witness for C2 (amended): instantiated at a concrete run in which the
cap has just dropped with two chunks still in flight. -/
theorem scheduler_cap_amended_witness :
    (s1Step (s1Reach 3 [.launch, .launch, .launch]) (.failRateLimit 0)).maxConcurrency = 1
    ∧ (s1Reach 3 [.launch, .launch, .launch]).processing ≤ 5 :=
  ⟨(scheduler_cap_amended 3 [.launch, .launch, .launch]).2.2.2.2.1 0 (by decide),
   (scheduler_cap_amended 3 [.launch, .launch, .launch]).1⟩

/-- Claim C7 counterexample: a rate-limit failure of a still-in-flight chunk
arriving 30 ticks into an active cooldown overwrites the timer back to 60 —
the remaining cooldown time increases from 30 to 60, contrary to the claim
that a second rate-limit signal never increases it. -/
theorem cooldown_extended_cx :
    (s1Reach 2 ([.launch, .launch, .failRateLimit 0] ++ List.replicate 30 .tick)).isCoolingDown
      = true
    ∧ (s1Reach 2 ([.launch, .launch, .failRateLimit 0]
        ++ List.replicate 30 .tick)).cooldownSeconds = 30
    ∧ (s1Reach 2 ([.launch, .launch, .failRateLimit 0]
        ++ List.replicate 30 .tick)).chunks.getD 1 .failed = .processing
    ∧ (s1Reach 2 ([.launch, .launch, .failRateLimit 0] ++ List.replicate 30 .tick
        ++ [.failRateLimit 1])).cooldownSeconds = 60 := by
  decide

/-- Claim C7 (amended): each stage has a single cooldown flag and counter
(so at most one cooldown is active per stage); a rate-limit failure of an
in-flight chunk arms the cooldown at the fixed 60-unit duration — even when
a cooldown is already active, overwriting (and thus possibly increasing) the
remaining time, contrary to the original claim; each periodic tick
decrements the counter by one, clearing the flag when it reaches zero; and
no chunk is launched while the cooldown is active. -/
theorem cooldown_amended (s : S1State) :
    (∀ i, s.chunks.getD i .failed = .processing →
        (s1Step s (.failRateLimit i)).isCoolingDown = true
        ∧ (s1Step s (.failRateLimit i)).cooldownSeconds = 60)
    ∧ (s.isCoolingDown = true → 1 < s.cooldownSeconds →
        s1Tick s = { s with cooldownSeconds := s.cooldownSeconds - 1 })
    ∧ (s.isCoolingDown = true → s.cooldownSeconds = 1 →
        s1Tick s = { s with isCoolingDown := false, cooldownSeconds := 0 })
    ∧ (s.isCoolingDown = false ∨ s.cooldownSeconds = 0 → s1Tick s = s)
    ∧ (s.isCoolingDown = true → s1Step s .launch = s) := by
  refine ⟨?_, ?_, ?_, ?_, ?_⟩
  · intro i hi
    show (s1FailRateLimit s i).isCoolingDown = true ∧ (s1FailRateLimit s i).cooldownSeconds = 60
    unfold s1FailRateLimit
    rw [if_pos hi]
    exact ⟨rfl, rfl⟩
  · intro hcool hgt
    unfold s1Tick
    rw [if_pos ⟨hcool, by omega⟩, if_neg (by omega)]
  · intro hcool heq
    unfold s1Tick
    rw [if_pos ⟨hcool, by omega⟩, if_pos (by omega)]
  · intro h
    unfold s1Tick
    rw [if_neg (by rcases h with h | h <;> simp [h])]
  · intro hcool
    show s1Launch s = s
    unfold s1Launch
    split
    · rfl
    · rw [if_neg (by simp [hcool])]

/-- Witness for C7 (amended): instantiated at a cooling state 30 ticks in. -/
theorem cooldown_amended_witness :
    s1Step ⟨[CStatus.pending, CStatus.processing], 1, 1, true, 30⟩ .launch
      = ⟨[CStatus.pending, CStatus.processing], 1, 1, true, 30⟩ :=
  (cooldown_amended ⟨[CStatus.pending, CStatus.processing], 1, 1, true, 30⟩).2.2.2.2 rfl

theorem s2Step_proc_le_one (s : S2State) (e : S2Event) (h : s.processing ≤ 1) :
    (s2Step s e).processing ≤ 1 := by
  cases e with
  | startNext =>
    show (s2StartNext s).processing ≤ 1
    unfold s2StartNext
    by_cases hg : s.finalizing = false ∨ 0 < s.processing ∨ s.isCoolingDown = true
    · rw [if_pos hg]; exact h
    · rw [if_neg hg]
      have hz : ¬ 0 < s.processing := fun hpos => hg (Or.inr (Or.inl hpos))
      split
      · exact h
      · show s.processing + 1 ≤ 1
        omega
  | finishOk i =>
    show (s2FinishOk s i).processing ≤ 1
    unfold s2FinishOk
    split_ifs
    · show (0 : Nat) ≤ 1; omega
    · exact h
  | failRateLimit i =>
    show (s2FailRateLimit s i).processing ≤ 1
    unfold s2FailRateLimit
    split_ifs
    · show (0 : Nat) ≤ 1; omega
    · exact h
  | failOther i =>
    show (s2FailOther s i).processing ≤ 1
    unfold s2FailOther
    split_ifs
    · show (0 : Nat) ≤ 1; omega
    · exact h
  | tick =>
    show (s2Tick s).processing ≤ 1
    unfold s2Tick
    split_ifs <;> exact h
  | retryBatch i =>
    show (s2RetryBatch s i).processing ≤ 1
    unfold s2RetryBatch
    split_ifs <;> exact h

theorem s2Run_proc_le_one (evs : List S2Event) :
    ∀ (s : S2State), s.processing ≤ 1 → (s2Run s evs).processing ≤ 1 := by
  induction evs with
  | nil => intro s h; exact h
  | cons e evs ih => intro s h; exact ih (s2Step s e) (s2Step_proc_le_one s e h)

/-- Claim C10: stage-2 batches are processed strictly sequentially — in
every reachable state of a stage-2 run at most one batch is processing
(`step2Stats.processing` is 0 or 1), and the queue effect is a no-op (does
not launch a pending batch) whenever a batch is already processing or a
cooldown is active, regardless of the stage-1 concurrency cap. -/
theorem step2_sequential_invariant (n : Nat) (evs : List S2Event) :
    (s2Reach n evs).processing ≤ 1
    ∧ ∀ s : S2State, (0 < s.processing ∨ s.isCoolingDown = true) →
        s2Step s .startNext = s := by
  constructor
  · exact s2Run_proc_le_one evs (s2Init n) (by simp [s2Init])
  · intro s h
    show s2StartNext s = s
    unfold s2StartNext
    rw [if_pos (Or.inr h)]

/-- Witness for C10: a run that tries to start three batches ends with at
most one processing, and the queue effect is a no-op on a busy state. -/
theorem step2_sequential_witness :
    (s2Reach 2 [.startNext, .startNext, .startNext]).processing ≤ 1
    ∧ s2Step ⟨[BStatus.pending], 1, false, 0, true⟩ .startNext
        = ⟨[BStatus.pending], 1, false, 0, true⟩ :=
  ⟨(step2_sequential_invariant 2 [.startNext, .startNext, .startNext]).1,
   (step2_sequential_invariant 0 []).2 ⟨[BStatus.pending], 1, false, 0, true⟩
     (Or.inl Nat.one_pos)⟩

theorem jsSetDedup_mem_aux :
    ∀ (n : Nat) (l : List String), l.length ≤ n →
      ∀ a, (a ∈ jsSetDedup l ↔ a ∈ l) := by
  intro n
  induction n with
  | zero =>
    intro l hl a
    have hnil : l = [] := List.eq_nil_of_length_eq_zero (Nat.le_zero.mp hl)
    subst hnil
    simp [jsSetDedup]
  | succ n ih =>
    intro l hl a
    cases l with
    | nil => simp [jsSetDedup]
    | cons x xs =>
      rw [jsSetDedup]
      have hlen : (xs.filter (fun y => y != x)).length ≤ n :=
        le_trans (List.length_filter_le _ _) (by simpa using hl)
      simp only [List.mem_cons, ih _ hlen a, List.mem_filter, bne_iff_ne, ne_eq,
        decide_eq_true_eq]
      by_cases hax : a = x
      · simp [hax]
      · simp [hax]

theorem jsSetDedup_mem (l : List String) (a : String) :
    a ∈ jsSetDedup l ↔ a ∈ l :=
  jsSetDedup_mem_aux l.length l le_rfl a

theorem jsSetDedup_nodup_aux :
    ∀ (n : Nat) (l : List String), l.length ≤ n → (jsSetDedup l).Nodup := by
  intro n
  induction n with
  | zero =>
    intro l hl
    have hnil : l = [] := List.eq_nil_of_length_eq_zero (Nat.le_zero.mp hl)
    subst hnil
    simp [jsSetDedup]
  | succ n ih =>
    intro l hl
    cases l with
    | nil => simp [jsSetDedup]
    | cons x xs =>
      rw [jsSetDedup]
      have hlen : (xs.filter (fun y => y != x)).length ≤ n :=
        le_trans (List.length_filter_le _ _) (by simpa using hl)
      refine List.nodup_cons.mpr ⟨?_, ih _ hlen⟩
      intro hmem
      rw [jsSetDedup_mem_aux n _ hlen x] at hmem
      have := (List.mem_filter.mp hmem).2
      simp at this

theorem jsSetDedup_nodup (l : List String) : (jsSetDedup l).Nodup :=
  jsSetDedup_nodup_aux l.length l le_rfl

theorem mergeGoPE_spec :
    ∀ (rs : List PostEditResult) (acc : PostEditResult) (index : Nat),
      (acc.mode = "POST_EDIT_LECTURE_SCRIPT_RESULT_BATCHED" →
        (mergeGoPE acc rs index).mode = "POST_EDIT_LECTURE_SCRIPT_RESULT_BATCHED")
      ∧ (mergeGoPE acc rs index).refined_script
          = acc.refined_script ++ (rs.map (fun r => r.refined_script)).flatten
      ∧ (mergeGoPE acc rs index).removal_report.removed_from_main
          = acc.removal_report.removed_from_main
            ++ (rs.map (fun r => r.removal_report.removed_from_main)).flatten
      ∧ (mergeGoPE acc rs index).qa_audit.gv_items_total
          = acc.qa_audit.gv_items_total
            + (rs.map (fun r => r.qa_audit.gv_items_total)).sum
      ∧ (mergeGoPE acc rs index).qa_audit.gv_items_used_in_main
          = acc.qa_audit.gv_items_used_in_main
            + (rs.map (fun r => r.qa_audit.gv_items_used_in_main)).sum
      ∧ (mergeGoPE acc rs index).qa_audit.uncertain_items_count
          = acc.qa_audit.uncertain_items_count
            + (rs.map (fun r => r.qa_audit.uncertain_items_count)).sum
      ∧ (mergeGoPE acc rs index).qa_audit.gv_coverage_attestation
          = (acc.qa_audit.gv_coverage_attestation
              && rs.all (fun r => r.qa_audit.gv_coverage_attestation))
      ∧ (acc.qa_audit.risk_flags.Nodup →
          (mergeGoPE acc rs index).qa_audit.risk_flags.Nodup)
      ∧ (∀ f, f ∈ (mergeGoPE acc rs index).qa_audit.risk_flags
          ↔ f ∈ acc.qa_audit.risk_flags
            ∨ f ∈ (rs.map (fun r => r.qa_audit.risk_flags)).flatten) := by
  intro rs
  induction rs with
  | nil =>
    intro acc index
    refine ⟨fun h => h, by simp [mergeGoPE], by simp [mergeGoPE], by simp [mergeGoPE],
      by simp [mergeGoPE], by simp [mergeGoPE], by simp [mergeGoPE],
      fun h => h, by simp [mergeGoPE]⟩
  | cons r rest ih =>
    intro acc index
    have h := ih (mergeStepPE acc r index) (index + 1)
    refine ⟨?_, ?_, ?_, ?_, ?_, ?_, ?_, ?_, ?_⟩
    · intro _
      rw [mergeGoPE]
      exact h.1 rfl
    · rw [mergeGoPE, h.2.1]
      simp [mergeStepPE, List.append_assoc]
    · rw [mergeGoPE, h.2.2.1]
      simp [mergeStepPE, List.append_assoc]
    · rw [mergeGoPE, h.2.2.2.1]
      simp [mergeStepPE]
      omega
    · rw [mergeGoPE, h.2.2.2.2.1]
      simp [mergeStepPE]
      omega
    · rw [mergeGoPE, h.2.2.2.2.2.1]
      simp [mergeStepPE]
      omega
    · rw [mergeGoPE, h.2.2.2.2.2.2.1]
      simp [mergeStepPE, Bool.and_assoc]
    · intro _
      rw [mergeGoPE]
      exact h.2.2.2.2.2.2.2.1 (jsSetDedup_nodup _)
    · intro f
      rw [mergeGoPE, h.2.2.2.2.2.2.2.2 f]
      have hstep : f ∈ (mergeStepPE acc r index).qa_audit.risk_flags
          ↔ f ∈ acc.qa_audit.risk_flags ∨ f ∈ r.qa_audit.risk_flags := by
        show f ∈ jsSetDedup (acc.qa_audit.risk_flags ++ r.qa_audit.risk_flags) ↔ _
        rw [jsSetDedup_mem, List.mem_append]
      rw [hstep]
      simp only [List.map_cons, List.flatten_cons, List.mem_append]
      tauto

/-- Claim C9 counterexample: a singleton result list is returned unchanged —
its `mode` tag is NOT rewritten to the "...BATCHED" variant, so the claim
fails for one-element lists. -/
theorem merge_singleton_mode_cx :
    mergePostEditResults [peExSingle] = peExSingle
    ∧ (mergePostEditResults [peExSingle]).mode ≠ "POST_EDIT_LECTURE_SCRIPT_RESULT_BATCHED" := by
  exact ⟨rfl, by decide⟩

/-- Claim C9 (amended): for every list of AT LEAST TWO per-batch results,
`mergePostEditResults` concatenates the `refined_script` lists in batch
order (so the merged length is the sum of the inputs' lengths), concatenates
the `removed_from_main` lists, sums the numeric `qa_audit` counters, takes
the logical AND of `gv_coverage_attestation`, produces the deduplicating
union of the `risk_flags` sets, and rewrites the mode tag to the
"...BATCHED" variant; a singleton list, by contrast, is returned unchanged
(mode untouched), and an empty list yields a fixed EMPTY result. -/
theorem mergePostEditResults_amended (results : List PostEditResult)
    (h2 : 2 ≤ results.length) :
    (mergePostEditResults results).mode = "POST_EDIT_LECTURE_SCRIPT_RESULT_BATCHED"
    ∧ (mergePostEditResults results).refined_script
        = (results.map (fun r => r.refined_script)).flatten
    ∧ (mergePostEditResults results).refined_script.length
        = (results.map (fun r => r.refined_script.length)).sum
    ∧ (mergePostEditResults results).removal_report.removed_from_main
        = (results.map (fun r => r.removal_report.removed_from_main)).flatten
    ∧ (mergePostEditResults results).qa_audit.gv_items_total
        = (results.map (fun r => r.qa_audit.gv_items_total)).sum
    ∧ (mergePostEditResults results).qa_audit.gv_items_used_in_main
        = (results.map (fun r => r.qa_audit.gv_items_used_in_main)).sum
    ∧ (mergePostEditResults results).qa_audit.uncertain_items_count
        = (results.map (fun r => r.qa_audit.uncertain_items_count)).sum
    ∧ (mergePostEditResults results).qa_audit.gv_coverage_attestation
        = results.all (fun r => r.qa_audit.gv_coverage_attestation)
    ∧ (mergePostEditResults results).qa_audit.risk_flags.Nodup
    ∧ (∀ f, f ∈ (mergePostEditResults results).qa_audit.risk_flags
        ↔ ∃ r ∈ results, f ∈ r.qa_audit.risk_flags)
    ∧ mergePostEditResults [] = emptyPostEditResult
    ∧ (∀ r : PostEditResult, mergePostEditResults [r] = r) := by
  rcases results with _ | ⟨r1, _ | ⟨r2, rest⟩⟩
  · simp at h2
  · simp at h2
  · have hm : mergePostEditResults (r1 :: r2 :: rest)
        = mergeGoPE initialBatchedPE (r1 :: r2 :: rest) 0 := rfl
    have h := mergeGoPE_spec (r1 :: r2 :: rest) initialBatchedPE 0
    have hrefined : (mergePostEditResults (r1 :: r2 :: rest)).refined_script
        = ((r1 :: r2 :: rest).map (fun r => r.refined_script)).flatten := by
      rw [hm, h.2.1]
      simp [initialBatchedPE]
    refine ⟨by rw [hm]; exact h.1 rfl, hrefined, ?_, ?_, ?_, ?_, ?_, ?_, ?_, ?_,
      rfl, fun r => rfl⟩
    · rw [hrefined, List.length_flatten, List.map_map]
      rfl
    · rw [hm, h.2.2.1]
      simp [initialBatchedPE]
    · rw [hm, h.2.2.2.1]
      simp [initialBatchedPE]
    · rw [hm, h.2.2.2.2.1]
      simp [initialBatchedPE]
    · rw [hm, h.2.2.2.2.2.1]
      simp [initialBatchedPE]
    · rw [hm, h.2.2.2.2.2.2.1]
      simp [initialBatchedPE]
    · rw [hm]
      exact h.2.2.2.2.2.2.2.1 (by simp [initialBatchedPE])
    · intro f
      rw [hm, h.2.2.2.2.2.2.2.2 f]
      simp only [initialBatchedPE, List.not_mem_nil, false_or, List.mem_flatten,
        List.mem_map]
      constructor
      · rintro ⟨l, ⟨r, hr, rfl⟩, hf⟩
        exact ⟨r, hr, hf⟩
      · rintro ⟨r, hr, hf⟩
        exact ⟨r.qa_audit.risk_flags, ⟨r, hr, rfl⟩, hf⟩

/-- Witness for C9 (amended): two concrete results merge into a BATCHED
result. -/
theorem mergePostEditResults_amended_witness :
    (mergePostEditResults [peExSingle, peExSecond]).mode
      = "POST_EDIT_LECTURE_SCRIPT_RESULT_BATCHED" :=
  (mergePostEditResults_amended [peExSingle, peExSecond] (by decide)).1

end GPS
